import Mathlib

/-!
Verification of the NIMROD radar-data pipeline
(`modules/nimrod.py`, `modules/generate_timeseries.py`, `modules/batch_nimrod.py`,
`NIMROD_timeseries_cleaned.py`) via a shallow embedding in Lean.

Machine integers are modelled as `Int`/`Nat`, Python/numpy floats as `ℚ`
(every value produced by the code paths under scrutiny is an exact binary
rational, so rational arithmetic is exact where the code is exact).
Byte streams are `List ℕ` with entries below 256.
-/

/-- Python `int(q)` on a float: truncation towards zero. -/
def pyInt (q : ℚ) : ℤ := if 0 ≤ q then ⌊q⌋ else -⌊-q⌋

/-- Normalisation of one Python slice endpoint against a list of length `n`:
negative indices count from the end, and endpoints are clamped to `[0, n]`. -/
def sliceIdx (n : ℕ) (i : ℤ) : ℕ :=
  if i < 0 then (max 0 ((n : ℤ) + i)).toNat else min i.toNat n

/-- Python `l[a:b]` (also numpy slicing along one axis). -/
def pySlice {α : Type} (l : List α) (a b : ℤ) : List α :=
  (l.take (sliceIdx l.length b)).drop (sliceIdx l.length a)

/-- numpy 2-D slicing `g[r1:r2, c1:c2]` on a row-major grid. -/
def pySlice2 {α : Type} (g : List (List α)) (r1 r2 c1 c2 : ℤ) : List (List α) :=
  (pySlice g r1 r2).map (fun row => pySlice row c1 c2)

/-- Big-endian unsigned integer value of a byte list. -/
def beUInt (bs : List ℕ) : ℕ := bs.foldl (fun a b => a * 256 + b) 0

/-- Big-endian two's-complement signed integer value of a byte list
(4 bytes: `struct.unpack(">l", ·)`; 2 bytes: one element of `array("h")`
after `byteswap`). -/
def beInt (bs : List ℕ) : ℤ :=
  if 2 ^ (8 * bs.length - 1) ≤ beUInt bs then (beUInt bs : ℤ) - 2 ^ (8 * bs.length)
  else (beUInt bs : ℤ)

/-- Big-endian signed 16-bit integers from a byte list
(`array.array("h")` + `byteswap`); a trailing odd byte is dropped by the
caller's evenness check before this is reached. -/
def beInt16s : List ℕ → List ℤ
  | b0 :: b1 :: rest => beInt [b0, b1] :: beInt16s rest
  | _ => []

/-- IEEE-754 binary32 value (big-endian byte order) as a rational.
Exponent 255 (infinities and NaNs) has no rational value and is mapped to 0;
no claim in this development depends on such a header field. -/
def beFloat32 (b0 b1 b2 b3 : ℕ) : ℚ :=
  let sign : ℚ := if 128 ≤ b0 then -1 else 1
  let e := (b0 % 128) * 2 + b1 / 64
  let m := (b1 % 64) * 65536 + b2 * 256 + b3
  if e = 255 then 0
  else if e = 0 then sign * (m : ℚ) / 2 ^ 149
  else sign * ((2 ^ 23 + m : ℕ) : ℚ) * 2 ^ e / 2 ^ 150

/-- Big-endian binary32 floats from a byte list (`array.array("f")` + `byteswap`). -/
def beFloat32s : List ℕ → List ℚ
  | b0 :: b1 :: b2 :: b3 :: rest => beFloat32 b0 b1 b2 b3 :: beFloat32s rest
  | _ => []

/-- Strict UTF-8 decoding as performed by Python `bytes.decode("utf-8")`:
rejects continuation-byte errors, overlong encodings, surrogates and
code points above U+10FFFF. -/
def utf8Decode : List ℕ → Option (List Char)
  | [] => some []
  | b0 :: rest =>
    if b0 < 128 then (utf8Decode rest).map (fun cs => Char.ofNat b0 :: cs)
    else if 194 ≤ b0 ∧ b0 ≤ 223 then
      match rest with
      | b1 :: rest2 =>
        if 128 ≤ b1 ∧ b1 ≤ 191 then
          (utf8Decode rest2).map (fun cs => Char.ofNat ((b0 - 192) * 64 + (b1 - 128)) :: cs)
        else none
      | [] => none
    else if 224 ≤ b0 ∧ b0 ≤ 239 then
      match rest with
      | b1 :: b2 :: rest2 =>
        if (if b0 = 224 then 160 ≤ b1 ∧ b1 ≤ 191
            else if b0 = 237 then 128 ≤ b1 ∧ b1 ≤ 159
            else 128 ≤ b1 ∧ b1 ≤ 191) ∧ 128 ≤ b2 ∧ b2 ≤ 191 then
          (utf8Decode rest2).map
            (fun cs => Char.ofNat ((b0 - 224) * 4096 + (b1 - 128) * 64 + (b2 - 128)) :: cs)
        else none
      | _ => none
    else if 240 ≤ b0 ∧ b0 ≤ 244 then
      match rest with
      | b1 :: b2 :: b3 :: rest2 =>
        if (if b0 = 240 then 144 ≤ b1 ∧ b1 ≤ 191
            else if b0 = 244 then 128 ≤ b1 ∧ b1 ≤ 143
            else 128 ≤ b1 ∧ b1 ≤ 191) ∧ 128 ≤ b2 ∧ b2 ≤ 191 ∧ 128 ≤ b3 ∧ b3 ≤ 191 then
          (utf8Decode rest2).map
            (fun cs => Char.ofNat
              ((b0 - 240) * 262144 + (b1 - 128) * 4096 + (b2 - 128) * 64 + (b3 - 128)) :: cs)
        else none
      | _ => none
    else none

/-- Errors of the `Nimrod` codec (`Nimrod.RecordLenError`, `HeaderReadError`,
`PayloadReadError`, `BboxRangeError`); `uncaught` stands for a Python
exception escaping `Nimrod.__init__` uncaught (`UnicodeDecodeError` from
line 222, or `IndexError` on a header too short for element access). -/
inductive NimErr where
  | recordLen (actual expected : ℤ) (location : String)
  | headerRead
  | payloadRead
  | bboxRange
  | uncaught
deriving DecidableEq, Repr

/-- Decoded state of `modules/nimrod.py:Nimrod`.  `hdr_element` holds the
numeric header elements 0–104 (index 0 is the dummy slot); the three
character elements 105–107 are the separate fields `units`, `data_source`,
`title`, and elements 108 onwards are `spec_ints`. -/
structure Nimrod where
  hdr_element : List ℚ
  units : List Char
  data_source : List Char
  title : List Char
  spec_ints : List ℤ
  nrows : ℤ
  ncols : ℤ
  n_data_specific_reals : ℤ
  n_data_specific_ints : ℤ
  y_top : ℚ
  y_pixel_size : ℚ
  x_left : ℚ
  x_pixel_size : ℚ
  x_right : ℚ
  y_bottom : ℚ
  data : List (List ℤ)
deriving DecidableEq, Repr

instance {ε α : Type} [DecidableEq ε] [DecidableEq α] : DecidableEq (Except ε α) := fun a b =>
  match a, b with
  | .ok x, .ok y =>
    if h : x = y then .isTrue (by rw [h])
    else .isFalse (fun hc => h (by injection hc))
  | .error x, .error y =>
    if h : x = y then .isTrue (by rw [h])
    else .isFalse (fun hc => h (by injection hc))
  | .ok _, .error _ => .isFalse (fun hc => Except.noConfusion hc)
  | .error _, .ok _ => .isFalse (fun hc => Except.noConfusion hc)

/-- Model of `check_record_len`: 4-byte big-endian record marker, compared with the
expected value.  A short read makes `struct.unpack` raise, which is caught
and re-raised as `HeaderReadError`. -/
def check_record_len (s : List ℕ) (expected : ℤ) (location : String) :
    Except NimErr (List ℕ) :=
  if (s.take 4).length ≠ 4 then .error .headerRead
  else if beInt (s.take 4) ≠ expected then .error (.recordLen (beInt (s.take 4)) expected location)
  else .ok (s.drop 4)

/-- The five raw header arrays read inside the `try` block of
`Nimrod.__init__` (lines 187–217). -/
structure HeaderArrays where
  gen_ints : List ℤ
  gen_reals : List ℚ
  spec_reals : List ℚ
  characters : List ℕ
  specInts : List ℤ
deriving DecidableEq, Repr

/-- The header-body reads of `Nimrod.__init__`: five fixed-size reads.
`file.read(k)` returns up to `k` bytes without error; `array.frombytes`
raises (caught as `HeaderReadError`) only when the byte count is not a
multiple of the item size. -/
def readHeaderBody (s : List ℕ) : Except NimErr (HeaderArrays × List ℕ) :=
  let giB := s.take 62
  let s1 := s.drop 62
  let grB := s1.take 112
  let s2 := s1.drop 112
  let srB := s2.take 180
  let s3 := s2.drop 180
  let ch := s3.take 56
  let s4 := s3.drop 56
  let siB := s4.take 102
  let s5 := s4.drop 102
  if giB.length % 2 ≠ 0 ∨ grB.length % 4 ≠ 0 ∨ srB.length % 4 ≠ 0 ∨ siB.length % 2 ≠ 0 then
    .error .headerRead
  else
    .ok (⟨beInt16s giB, beFloat32s grB, beFloat32s srB, ch, beInt16s siB⟩, s5)

/-- Model of `Nimrod.__init__` up to and including the construction of the header
fields (lines 185–251): leading marker, header arrays, trailing marker,
character decode, named fields and derived bounds.  The payload is not
read yet (`data := []`). -/
def decodeHeaderPart (s : List ℕ) : Except NimErr (Nimrod × List ℕ) := do
  let s ← check_record_len s 512 "header start"
  let (a, s) ← readHeaderBody s
  let s ← check_record_len s 512 "header end"
  -- On a stream shorter than the full 512-byte header the Python code would
  -- index a shifted heterogeneous list (IndexError / type confusion),
  -- an exception escaping `__init__`; modelled as `uncaught`.
  if a.gen_ints.length = 31 ∧ a.gen_reals.length = 28 ∧ a.spec_reals.length = 45 then
    match utf8Decode a.characters with
    | none => .error .uncaught   -- UnicodeDecodeError escapes `__init__` uncaught
    | some cs =>
      let hdr : List ℚ := 0 :: (a.gen_ints.map (fun i => (i : ℚ)) ++ a.gen_reals ++ a.spec_reals)
      let nrows := a.gen_ints.getD 15 0       -- hdr_element[16]
      let ncols := a.gen_ints.getD 16 0       -- hdr_element[17]
      let y_top := a.gen_reals.getD 2 0       -- hdr_element[34]
      let y_ps := a.gen_reals.getD 3 0        -- hdr_element[35]
      let x_left := a.gen_reals.getD 4 0      -- hdr_element[36]
      let x_ps := a.gen_reals.getD 5 0        -- hdr_element[37]
      .ok ({ hdr_element := hdr
             units := cs.take 8
             data_source := (cs.drop 8).take 24
             title := (cs.drop 32).take 23
             spec_ints := a.specInts
             nrows := nrows
             ncols := ncols
             n_data_specific_reals := a.gen_ints.getD 21 0
             n_data_specific_ints := a.gen_ints.getD 22 0 + 1
             y_top := y_top
             y_pixel_size := y_ps
             x_left := x_left
             x_pixel_size := x_ps
             x_right := x_left + x_ps * ((ncols : ℚ) - 1)
             y_bottom := y_top - y_ps * ((nrows : ℚ) - 1)
             data := [] }, s)
  else .error .uncaught

/-- Python `file.read(k)`: the bytes returned (all remaining bytes when
`k < 0`, as for the payload read when `nrows*ncols < 0`). -/
def pyReadBytes (s : List ℕ) (k : ℤ) : List ℕ :=
  if k < 0 then s else s.take k.toNat

/-- Python `file.read(k)`: the rest of the stream after the read. -/
def pyReadRest (s : List ℕ) (k : ℤ) : List ℕ :=
  if k < 0 then [] else s.drop k.toNat

/-- Row-major reshape to `rows × w`: row `i` is `vals[i*w:(i+1)*w]`. -/
def chunkRows (w rows : ℕ) (vals : List ℤ) : List (List ℤ) :=
  (List.range rows).map (fun i => (vals.drop (i * w)).take w)

/-- The payload part of `Nimrod.__init__` (lines 253–272): leading marker
expected `nrows*ncols*2`, big-endian int16 payload, reshape, trailing
marker.  `np.frombuffer` raises (caught as `PayloadReadError`) when the
byte count is odd; `reshape` raises (likewise caught) when the element
count does not match `nrows*ncols`.  numpy's `-1` dimension inference for
negative header dimensions is not modelled; every claim constrains
`nrows, ncols ≥ 0`. -/
def decodePayload (st : Nimrod) (s : List ℕ) : Except NimErr Nimrod := do
  let asize : ℤ := st.ncols * st.nrows
  let s ← check_record_len s (asize * 2) "data start"
  let dataBytes := pyReadBytes s (asize * 2)
  let s1 := pyReadRest s (asize * 2)
  if dataBytes.length % 2 ≠ 0 then .error .payloadRead
  else
    let vals := beInt16s dataBytes
    if 0 ≤ st.nrows ∧ 0 ≤ st.ncols ∧ (vals.length : ℤ) = st.nrows * st.ncols then
      let grid := chunkRows st.ncols.toNat st.nrows.toNat vals
      let _ ← check_record_len s1 (asize * 2) "data end"
      .ok { st with data := grid }
    else .error .payloadRead

/-- Model of `Nimrod.__init__`: full decode of one NIMROD byte stream. -/
def decode (s : List ℕ) : Except NimErr Nimrod := do
  let (st, s') ← decodeHeaderPart s
  decodePayload st s'

/-- Model of `Nimrod.apply_bbox` (lines 348–407).  Note that the bottom-edge overlap
check of the source multiplies out `self.x_pixel_size / 2` (line 372). -/
def apply_bbox (st : Nimrod) (xmin xmax ymin ymax : ℚ) : Except NimErr Nimrod :=
  if xmin > st.x_right + st.x_pixel_size / 2 ∨
     xmax < st.x_left - st.x_pixel_size / 2 ∨
     ymin > st.y_top + st.y_pixel_size / 2 ∨
     ymax < st.y_bottom - st.x_pixel_size / 2 then
    .error .bboxRange
  else
    let xmin := max xmin st.x_left
    let xmax := min xmax st.x_right
    let ymin := max ymin st.y_bottom
    let ymax := min ymax st.y_top
    let xMinPixelId := pyInt ((xmin - st.x_left) / st.x_pixel_size + 1/2)
    let xMaxPixelId := pyInt ((xmax - st.x_left) / st.x_pixel_size + 1/2)
    let yMinPixelId := pyInt ((st.y_top - ymax) / st.y_pixel_size + 1/2)
    let yMaxPixelId := pyInt ((st.y_top - ymin) / st.y_pixel_size + 1/2)
    let data' := pySlice2 st.data yMinPixelId (yMaxPixelId + 1) xMinPixelId (xMaxPixelId + 1)
    let x_right' := st.x_left + (xMaxPixelId : ℚ) * st.x_pixel_size
    let x_left' := st.x_left + (xMinPixelId : ℚ) * st.x_pixel_size
    let ncols' := xMaxPixelId - xMinPixelId + 1
    let y_bottom' := st.y_top - (yMaxPixelId : ℚ) * st.y_pixel_size
    let y_top' := st.y_top - (yMinPixelId : ℚ) * st.y_pixel_size
    let nrows' := yMaxPixelId - yMinPixelId + 1
    .ok { st with
          data := data'
          x_right := x_right'
          x_left := x_left'
          ncols := ncols'
          y_bottom := y_bottom'
          y_top := y_top'
          nrows := nrows'
          hdr_element :=
            (((st.hdr_element.set 16 (nrows' : ℚ)).set 17 (ncols' : ℚ)).set 34 y_top').set 36 x_left' }

/-- Python `"%d" % q` on a float: truncation towards zero, then decimal. -/
def fmtD (q : ℚ) : String := toString (pyInt q)

/-- Python `"%.1f" % q` for an exact rational: round to tenths
(ties-to-even, as for exactly representable floats), one decimal digit. -/
def fmtF1 (q : ℚ) : String :=
  if q < 0 then "-" ++ fmtF1aux (-q) else fmtF1aux q
where
  fmtF1aux (r : ℚ) : String :=
    let f := ⌊r * 10⌋
    let frac := r * 10 - f
    let n : ℤ := if frac < 1/2 then f else if 1/2 < frac then f + 1 else if f % 2 = 0 then f else f + 1
    toString (n / 10) ++ "." ++ toString (n % 10)

/-- Model of `Nimrod.extract_asc` (lines 409–439): the lines of the ESRI ASCII
raster written to the output file (6 header lines, then the data rows as
written by `np.savetxt(·, fmt="%d", delimiter=" ")`).  The non-fatal
square-pixel warning goes to stdout, not to the file. -/
def extract_asc (st : Nimrod) : List String :=
  [ "ncols          " ++ toString st.ncols
  , "nrows          " ++ toString st.nrows
  , "xllcenter     " ++ fmtD st.x_left
  , "yllcenter     " ++ fmtD st.y_bottom
  , "cellsize       " ++ fmtF1 st.y_pixel_size
  , "nodata_value  " ++ fmtF1 (st.hdr_element.getD 38 0)
  ] ++ st.data.map (fun row => String.intercalate " " (row.map toString))

/-- Model of `calculate_crop_coords` of `NIMROD_timeseries_cleaned.py` (lines 25–54):
projects the basin footprint into source-grid pixel space.  Headers are
six-entry float lists `[ncols, nrows, xllcenter, yllcenter, cellsize,
nodata]`; `np.floor`/`np.ceil` followed by `int(·)` is exact floor/ceil. -/
def calculate_crop_coords (basin_header radar_header : List ℚ) : ℤ × ℤ × ℤ × ℤ :=
  let y0_radar := radar_header.getD 3 0
  let x0_radar := radar_header.getD 2 0
  let y0_basin := basin_header.getD 3 0
  let x0_basin := basin_header.getD 2 0
  let nrows_radar := radar_header.getD 1 0
  let nrows_basin := basin_header.getD 1 0
  let ncols_basin := basin_header.getD 0 0
  let cellres_radar := radar_header.getD 4 0
  let cellres_basin := basin_header.getD 4 0
  let xp := x0_basin - x0_radar
  let yp := y0_basin - y0_radar
  let xpp := ncols_basin * cellres_basin
  let ypp := nrows_basin * cellres_basin
  (⌊xp / cellres_radar⌋,
   ⌊nrows_radar - (yp + ypp) / cellres_radar⌋,
   ⌈(xpp + xp) / cellres_radar⌉,
   ⌈nrows_radar - yp / cellres_radar⌉)

/-- A location row `[1K Grid, Easting, Northing, Zone]` as loaded by
`main.py` from the zone CSVs. -/
structure Location where
  grid_id : String
  easting : ℚ
  northing : ℚ
  zone : ℤ
deriving DecidableEq, Repr

/-- Model of `GenerateTimeseries._calculate_crop_coords` (lines 29–65): as the
cleaned-script version but with the basin extent hardcoded to a 2×2
footprint of 1 km cells, and the basin origin taken from `location[1]`
(easting) and `location[2]` (northing). -/
def gt_calculate_crop_coords (loc : Location) (radar_header : List ℚ) : ℤ × ℤ × ℤ × ℤ :=
  let y0_radar := radar_header.getD 3 0
  let x0_radar := radar_header.getD 2 0
  let y0_basin := loc.northing
  let x0_basin := loc.easting
  let nrows_radar := radar_header.getD 1 0
  let nrows_basin : ℚ := 2
  let ncols_basin : ℚ := 2
  let cellres_radar := radar_header.getD 4 0
  let cellres_basin : ℚ := 1000
  let xp := x0_basin - x0_radar
  let yp := y0_basin - y0_radar
  let xpp := ncols_basin * cellres_basin
  let ypp := nrows_basin * cellres_basin
  (⌊xp / cellres_radar⌋,
   ⌊nrows_radar - (yp + ypp) / cellres_radar⌋,
   ⌈(xpp + xp) / cellres_radar⌉,
   ⌈nrows_radar - yp / cellres_radar⌉)

/-- numpy `a.size` of a (possibly empty) 2-D cropped grid. -/
def gridSize {α : Type} (g : List (List α)) : ℕ := (g.map List.length).sum

/-- The per-location value computed by `GenerateTimeseries.process_asc_file`
(lines 98–113): crop `grid[start_row:end_row, start_col:end_col]`, then
`flatten()[2] / 32` when the window holds more than 2 cells, else `0.0`. -/
def gt_location_value (radar_header : List ℚ) (grid : List (List ℚ)) (loc : Location) : ℚ :=
  let c := gt_calculate_crop_coords loc radar_header
  let cropped := pySlice2 grid c.2.1 c.2.2.2 c.1 c.2.2.1
  if 2 < gridSize cropped then (cropped.flatten.getD 2 0) / 32 else 0

/-- One result row appended by `process_asc_file` for one location
(`{'zone_id': …, 'date': …, 'value': …}`); the parsed timestamp is
abstracted as a natural number. -/
structure LocResult where
  zone_id : String
  date : ℕ
  value : ℚ
deriving DecidableEq, Repr

/-- Model of `GenerateTimeseries.process_asc_file` (lines 98–119): one result per
configured location, in configuration order. -/
def process_asc_file (radar_header : List ℚ) (grid : List (List ℚ)) (date : ℕ)
    (locations : List Location) : List LocResult :=
  locations.map (fun loc =>
    { zone_id := loc.grid_id, date := date, value := gt_location_value radar_header grid loc })

/-- Model of `BatchNimrod._process_single_file` (lines 13–51): decode one file;
every decode failure (`HeaderReadError`, `PayloadReadError`, or any other
exception) is caught at the task boundary and reported as `False`, success
as `True`. -/
def process_single_file (bytes : List ℕ) : Bool :=
  match decode bytes with
  | .ok _ => true
  | .error _ => false

/-- The batch loop of `BatchNimrod.process_nimrod_files`: every file is
processed independently; one file's outcome never influences another's. -/
def process_batch (files : List (List ℕ)) : List Bool :=
  files.map process_single_file

/-- Helper for `sorted(set(l))` of Python: the strictly increasing enumeration of the
elements of `l`. -/
def insertSorted (x : ℕ) : List ℕ → List ℕ
  | [] => [x]
  | y :: ys => if x < y then x :: y :: ys else if x = y then y :: ys else y :: insertSorted x ys

/-- Model of `sorted(set(l))` of Python (order of insertion is irrelevant after
sorting and deduplication). -/
def sortedDedup (l : List ℕ) : List ℕ := l.foldr insertSorted []

/-- One iteration state of the alignment loop of
`GenerateTimeseries.write_results_to_csv` (lines 241–258): the outer
`for expected_date in dates` walk (first argument) is compared against
`current_date`/`current_value` drawn from `date_iter = iter(dates)` —
the same union date list — and `value_iter = iter(values)` (remaining
elements in the last two arguments).  On a match the current value is
appended and both iterators advance, a `StopIteration` from either
`next` setting both currents to `None`; otherwise `None` is appended
and the currents are kept. -/
def alignWalk : List ℕ → Option ℕ → Option ℚ → List ℕ → List ℚ → List (Option ℚ)
  | [], _, _, _, _ => []
  | e :: es, cd, cv, dRest, vRest =>
    if cd = some e then
      cv :: (match dRest, vRest with
        | d :: ds, v :: vs => alignWalk es (some d) (some v) ds vs
        | _, _ => alignWalk es none none [] [])
    else none :: alignWalk es cd cv dRest vRest

/-- The per-member alignment of `write_results_to_csv`: `values_dict`
keeps only the member's values (its own dates are discarded) and
`date_iter` iterates the union `dates` themselves, so the walk lays the
member's k-th value on the k-th union date and pads with `None`. -/
def alignValues (dates : List ℕ) (values : List ℚ) : List (Option ℚ) :=
  alignWalk dates dates.head? values.head? dates.tail values.tail

/-- A zone member for aggregation: grid id and zone
(`loc[0]` and `loc[3]`). -/
structure TSLoc where
  grid_id : String
  zone : ℤ
deriving DecidableEq, Repr

/-- Model of `GenerateTimeseries.write_results_to_csv` (lines 206–275),
restricted to one zone.  `results` holds each grid id's accumulated
`(date, value)` pairs — `results[zone_id]['dates']` and
`results[zone_id]['values']` are appended pairwise, in worker completion
order.  The rows are `sorted(set(all member dates))`; each member column
is produced by the alignment walk, which receives only the member's
values (`values_dict[zone_id] = results[zone_id]['values']`). -/
def zoneTable (locations : List TSLoc) (results : String → List (ℕ × ℚ)) (z : ℤ) :
    List ℕ × List (String × List (Option ℚ)) :=
  let members := locations.filter (fun l => l.zone = z)
  let dates := sortedDedup (members.flatMap (fun m => (results m.grid_id).map Prod.fst))
  (dates, members.map (fun m =>
    (m.grid_id, alignValues dates ((results m.grid_id).map Prod.snd))))

/-- The spec's no-intersection predicate, following the spec's words: the
box lies entirely outside the raster "where outside allows a
half-pixel-width tolerance on every edge" — the half pixel being measured
along the axis of the edge in question. -/
def outsideBeyondHalfPixel (st : Nimrod) (xmin xmax ymin ymax : ℚ) : Prop :=
  xmin > st.x_right + st.x_pixel_size / 2 ∨
  xmax < st.x_left - st.x_pixel_size / 2 ∨
  ymin > st.y_top + st.y_pixel_size / 2 ∨
  ymax < st.y_bottom - st.y_pixel_size / 2

/-- The claim's description of the clipped grid: clamp the box to
`[x_left, x_right] × [y_bottom, y_top]`, convert to pixel indices with
`⌊·/pixel_size + 1/2⌋`, and keep exactly grid rows `yMin..yMax` and
columns `xMin..xMax` (inclusive) of the original grid. -/
def bboxSubgridSpec (st : Nimrod) (xmin xmax ymin ymax : ℚ) (st' : Nimrod) : Prop :=
  let xminC := max xmin st.x_left
  let xmaxC := min xmax st.x_right
  let yminC := max ymin st.y_bottom
  let ymaxC := min ymax st.y_top
  let xMin := ⌊(xminC - st.x_left) / st.x_pixel_size + 1/2⌋
  let xMax := ⌊(xmaxC - st.x_left) / st.x_pixel_size + 1/2⌋
  let yMin := ⌊(st.y_top - ymaxC) / st.y_pixel_size + 1/2⌋
  let yMax := ⌊(st.y_top - yminC) / st.y_pixel_size + 1/2⌋
  0 ≤ xMin ∧ 0 ≤ yMin ∧
  st'.data = ((st.data.drop yMin.toNat).take (yMax.toNat + 1 - yMin.toNat)).map
    (fun row => (row.drop xMin.toNat).take (xMax.toNat + 1 - xMin.toNat))

/-- Geometric well-formedness of a decoded raster: positive pixel sizes,
at least one row and one column, and the bounds derived on lines 249–251
of `nimrod.py`. -/
def GeomOK (st : Nimrod) : Prop :=
  0 < st.x_pixel_size ∧ 0 < st.y_pixel_size ∧ 1 ≤ st.ncols ∧ 1 ≤ st.nrows ∧
  st.x_right = st.x_left + st.x_pixel_size * ((st.ncols : ℚ) - 1) ∧
  st.y_bottom = st.y_top - st.y_pixel_size * ((st.nrows : ℚ) - 1)

/-- Internal consistency of a decoded raster: the grid has `nrows` rows of
`ncols` entries and the duplicated header elements 16/17/34/36 agree with
the named fields, as established by `Nimrod.__init__`. -/
def StateConsistent (st : Nimrod) : Prop :=
  st.data.length = st.nrows.toNat ∧ (∀ row ∈ st.data, row.length = st.ncols.toNat) ∧
  st.hdr_element.get? 16 = some ((st.nrows : ℚ)) ∧
  st.hdr_element.get? 17 = some ((st.ncols : ℚ)) ∧
  st.hdr_element.get? 34 = some st.y_top ∧
  st.hdr_element.get? 36 = some st.x_left

/-- Header `nrows` as read positionally from a stream: header element 16 =
`gen_ints[15]`, big-endian int16 at byte offset 34. -/
def hdrNrows (s : List ℕ) : ℤ := beInt ((s.drop 34).take 2)

/-- Header `ncols` as read positionally from a stream: header element 17 =
`gen_ints[16]`, big-endian int16 at byte offset 36. -/
def hdrNcols (s : List ℕ) : ℤ := beInt ((s.drop 36).take 2)

/-- The expected value of both payload record markers:
`array_size * 2 = ncols * nrows * 2`. -/
def payloadExpected (s : List ℕ) : ℤ := hdrNcols s * hdrNrows s * 2

/-- The header state built by `decodeHeaderPart` on a stream holding the
full 512-byte header, with all reads expressed positionally. -/
def mkHeaderState (s : List ℕ) (cs : List Char) : Nimrod :=
  let gi := beInt16s ((s.drop 4).take 62)
  let gr := beFloat32s ((s.drop 66).take 112)
  let sr := beFloat32s ((s.drop 178).take 180)
  let si := beInt16s ((s.drop 414).take 102)
  let nrows := gi.getD 15 0
  let ncols := gi.getD 16 0
  let y_top := gr.getD 2 0
  let y_ps := gr.getD 3 0
  let x_left := gr.getD 4 0
  let x_ps := gr.getD 5 0
  { hdr_element := 0 :: (gi.map (fun i => (i : ℚ)) ++ gr ++ sr)
    units := cs.take 8
    data_source := (cs.drop 8).take 24
    title := (cs.drop 32).take 23
    spec_ints := si
    nrows := nrows
    ncols := ncols
    n_data_specific_reals := gi.getD 21 0
    n_data_specific_ints := gi.getD 22 0 + 1
    y_top := y_top
    y_pixel_size := y_ps
    x_left := x_left
    x_pixel_size := x_ps
    x_right := x_left + x_ps * ((ncols : ℚ) - 1)
    y_bottom := y_top - y_ps * ((nrows : ℚ) - 1)
    data := [] }

/-- Predicate `Except.isOk` spelled out for the codec's result type. -/
def decodeOk (r : Except NimErr Nimrod) : Bool :=
  match r with
  | .ok _ => true
  | .error _ => false

/-- A 4-byte big-endian record marker with value 512. -/
def m512 : List ℕ := [0, 0, 2, 0]

/-- The `gen_ints` bytes of a 1×1 test header (`nrows = ncols = 1`). -/
def giBytes11 : List ℕ := List.replicate 30 0 ++ [0, 1, 0, 1] ++ List.replicate 28 0

/-- A valid 1×1 NIMROD stream with payload value 10. -/
def goodStream : List ℕ :=
  m512 ++ giBytes11 ++ List.replicate 450 0 ++ m512 ++ [0, 0, 0, 2] ++ [0, 10] ++ [0, 0, 0, 2]

/-- A valid 1×1 NIMROD stream with payload value 20. -/
def goodStream2 : List ℕ :=
  m512 ++ giBytes11 ++ List.replicate 450 0 ++ m512 ++ [0, 0, 0, 2] ++ [0, 20] ++ [0, 0, 0, 2]

/-- Stream `goodStream` with its payload record truncated by one byte (the
stream ends one byte before the end of the payload record). -/
def badStream : List ℕ := goodStream.take 525

/-- A stream whose trailing header marker holds 1 instead of 512. -/
def c2StreamHdrEnd : List ℕ := m512 ++ giBytes11 ++ List.replicate 450 0 ++ [0, 0, 0, 1]

/-- A stream whose leading payload marker holds 9 instead of `1*1*2`. -/
def c2StreamDataStart : List ℕ := m512 ++ giBytes11 ++ List.replicate 450 0 ++ m512 ++ [0, 0, 0, 9]

/-- A stream whose trailing payload marker holds 9 instead of `1*1*2`. -/
def c2StreamDataEnd : List ℕ :=
  m512 ++ giBytes11 ++ List.replicate 450 0 ++ m512 ++ [0, 0, 0, 2] ++ [0, 10] ++ [0, 0, 0, 9]

/-- The concrete raster of the spec's ASCII-export scenario:
`nrows = ncols = 2`, `y_top = 218000`, `x_left = 607000`, square 1000 m
pixels, grid `[[10, 20], [30, 40]]`, `nodata_value = 0`. -/
def stC4 : Nimrod :=
  { hdr_element := ((((List.replicate 105 (0 : ℚ)).set 16 2).set 17 2).set 34 218000).set 36 607000
    units := [], data_source := [], title := [], spec_ints := []
    nrows := 2, ncols := 2
    n_data_specific_reals := 0, n_data_specific_ints := 1
    y_top := 218000, y_pixel_size := 1000, x_left := 607000, x_pixel_size := 1000
    x_right := 608000, y_bottom := 217000
    data := [[10, 20], [30, 40]] }

/-- A raster with `x_pixel_size = 2` and `y_pixel_size = 10`, used to
witness the bottom-edge tolerance of `apply_bbox`. -/
def stC5 : Nimrod :=
  { hdr_element := List.replicate 105 (0 : ℚ)
    units := [], data_source := [], title := [], spec_ints := []
    nrows := 2, ncols := 2
    n_data_specific_reals := 0, n_data_specific_ints := 1
    y_top := 10, y_pixel_size := 10, x_left := 0, x_pixel_size := 2
    x_right := 2, y_bottom := 0
    data := [[0, 0], [0, 0]] }

/-- A 2×2 unit-pixel raster for the clipping witness. -/
def stC1 : Nimrod :=
  { hdr_element := ((((List.replicate 105 (0 : ℚ)).set 16 2).set 17 2).set 34 1).set 36 0
    units := [], data_source := [], title := [], spec_ints := []
    nrows := 2, ncols := 2
    n_data_specific_reals := 0, n_data_specific_ints := 1
    y_top := 1, y_pixel_size := 1, x_left := 0, x_pixel_size := 1
    x_right := 1, y_bottom := 0
    data := [[1, 2], [3, 4]] }

/-- The result of clipping `stC1` to the box `(0.6, 1, 0, 0.4)`. -/
def stC1' : Nimrod :=
  { hdr_element := (((List.replicate 105 (0 : ℚ)).set 16 1).set 17 1).set 36 1
    units := [], data_source := [], title := [], spec_ints := []
    nrows := 1, ncols := 1
    n_data_specific_reals := 0, n_data_specific_ints := 1
    y_top := 0, y_pixel_size := 1, x_left := 1, x_pixel_size := 1
    x_right := 1, y_bottom := 0
    data := [[4]] }

/-- Zone members of the aggregation scenario: locations A and B in zone 1. -/
def tsLocsC3 : List TSLoc := [⟨"A", 1⟩, ⟨"B", 1⟩]

/-- Accumulated per-location results of the aggregation scenario — the
spec's own example, with results arriving in ascending timestamp order:
A observed value 3 at t₁ = 1 and 5 at t₂ = 2; B observed 7 at t₂ = 2
and 9 at t₃ = 3. -/
def resultsC3 : String → List (ℕ × ℚ) :=
  fun g => if g = "A" then [(1, 3), (2, 5)] else if g = "B" then [(2, 7), (3, 9)] else []

theorem pyInt_eq_floor (q : ℚ) (h : 0 ≤ q) : pyInt q = ⌊q⌋ := by
  simp [pyInt, h]

theorem set_get?_self (l : List ℚ) (i : ℕ) (a : ℚ) (h : l.get? i = some a) : l.set i a = l := by
  have hlen : i < l.length := by
    rw [List.get?_eq_getElem?] at h
    exact (List.getElem?_eq_some.mp h).1
  apply List.ext_getElem?
  intro n
  rw [List.getElem?_set]
  by_cases hn : i = n
  · subst hn
    rw [if_pos rfl, if_pos hlen, ← List.get?_eq_getElem?, h]
  · simp [hn]

theorem pySlice_eq_drop_take {α : Type} (l : List α) (a b : ℤ) (ha : 0 ≤ a) (hb : 0 ≤ b) :
    pySlice l a b = (l.drop a.toNat).take (b.toNat - a.toNat) := by
  unfold pySlice sliceIdx
  rw [if_neg (by omega), if_neg (by omega), List.drop_take]
  by_cases hA : a.toNat ≤ l.length
  · rw [min_eq_left hA]
    by_cases hB : b.toNat ≤ l.length
    · rw [min_eq_left hB]
    · rw [min_eq_right (le_of_not_le hB)]
      rw [List.take_of_length_le, List.take_of_length_le]
      · simp only [List.length_drop]; omega
      · simp only [List.length_drop]; omega
  · rw [min_eq_right (le_of_not_le hA), List.drop_length,
      List.drop_eq_nil_of_le (le_of_not_le hA)]
    simp

theorem take_drop_take {α : Type} (s : List α) (a b M : ℕ) (h : a + b ≤ M) :
    ((s.take M).drop a).take b = (s.drop a).take b := by
  rw [List.drop_take, List.take_take, min_eq_left (by omega)]

theorem beInt16s_length (l : List ℕ) : (beInt16s l).length = l.length / 2 := by
  match l with
  | [] => simp [beInt16s]
  | [b] => simp [beInt16s]
  | b0 :: b1 :: rest => simp [beInt16s, beInt16s_length rest]; omega

theorem beFloat32s_length (l : List ℕ) : (beFloat32s l).length = l.length / 4 := by
  match l with
  | [] => simp [beFloat32s]
  | [b] => simp [beFloat32s]
  | [b, c] => simp [beFloat32s]
  | [b, c, d] => simp [beFloat32s]
  | b0 :: b1 :: b2 :: b3 :: rest => simp [beFloat32s, beFloat32s_length rest]; omega

theorem beInt16s_getD (l : List ℕ) (j : ℕ) (h : 2 * j + 2 ≤ l.length) :
    (beInt16s l).getD j 0 = beInt ((l.drop (2 * j)).take 2) := by
  induction j generalizing l with
  | zero =>
    match l, h with
    | b0 :: b1 :: rest, _ => simp [beInt16s, List.take]
  | succ j ih =>
    match l, h with
    | b0 :: b1 :: rest, h =>
      have hr : 2 * j + 2 ≤ rest.length := by simp at h; omega
      have : 2 * (j + 1) = 2 * j + 2 := by omega
      simp only [beInt16s, List.getD_cons_succ, ih rest hr, this, List.drop_succ_cons]

theorem check_record_len_ok_iff (s : List ℕ) (e : ℤ) (loc : String) (t : List ℕ) :
    check_record_len s e loc = .ok t ↔ 4 ≤ s.length ∧ beInt (s.take 4) = e ∧ t = s.drop 4 := by
  unfold check_record_len
  constructor
  · intro h
    by_cases h4 : (s.take 4).length = 4
    · rw [if_neg (by simp [h4])] at h
      by_cases hv : beInt (s.take 4) = e
      · rw [if_neg (by simp [hv])] at h
        refine ⟨?_, hv, (Except.ok.injEq _ _).mp h.symm⟩
        rw [List.length_take] at h4; omega
      · rw [if_pos hv] at h; exact absurd h (by simp)
    · rw [if_pos h4] at h; exact absurd h (by simp)
  · rintro ⟨h4, hv, ht⟩
    rw [if_neg (by rw [List.length_take]; omega), if_neg (by simp [hv]), ht]

theorem check_record_len_ok (s : List ℕ) (e : ℤ) (loc : String)
    (h4 : 4 ≤ s.length) (hv : beInt (s.take 4) = e) :
    check_record_len s e loc = .ok (s.drop 4) :=
  (check_record_len_ok_iff s e loc (s.drop 4)).mpr ⟨h4, hv, rfl⟩

theorem check_record_len_err (s : List ℕ) (e : ℤ) (loc : String)
    (h4 : 4 ≤ s.length) (hv : beInt (s.take 4) ≠ e) :
    check_record_len s e loc = .error (.recordLen (beInt (s.take 4)) e loc) := by
  unfold check_record_len
  rw [if_neg (by rw [List.length_take]; omega), if_pos hv]

theorem readHeaderBody_full (t : List ℕ) (h : 516 ≤ t.length) :
    readHeaderBody t = .ok
      (⟨beInt16s (t.take 62), beFloat32s ((t.drop 62).take 112),
        beFloat32s ((t.drop 174).take 180), (t.drop 354).take 56,
        beInt16s ((t.drop 410).take 102)⟩, t.drop 512) := by
  unfold readHeaderBody
  have e1 : (t.take 62).length = 62 := by rw [List.length_take]; omega
  have e2 : ((t.drop 62).take 112).length = 112 := by
    rw [List.length_take, List.length_drop]; omega
  have e3 : (((t.drop 62).drop 112).take 180).length = 180 := by
    rw [List.length_take, List.length_drop, List.length_drop]; omega
  have e4 : ((((t.drop 62).drop 112).drop 180).drop 56).take 102 =
      (t.drop 410).take 102 := by
    rw [List.drop_drop, List.drop_drop, List.drop_drop]
  have e5 : (((t.drop 62).drop 112).drop 180).take 56 = (t.drop 354).take 56 := by
    rw [List.drop_drop, List.drop_drop]
  have e6 : ((t.drop 410).take 102).length = 102 := by
    rw [List.length_take, List.length_drop]; omega
  have e7 : ((((t.drop 62).drop 112).drop 180).drop 56).drop 102 = t.drop 512 := by
    rw [List.drop_drop, List.drop_drop, List.drop_drop, List.drop_drop]
  rw [if_neg]
  · rw [e4, e5, e7]
    congr 2
    rw [List.drop_drop]
  · rw [e1, e2, e3, e4, e6]
    simp

theorem decodeHeaderPart_full (s : List ℕ) (cs : List Char) (h : 520 ≤ s.length)
    (m1 : beInt (s.take 4) = 512) (m2 : beInt ((s.drop 516).take 4) = 512)
    (hu : utf8Decode ((s.drop 358).take 56) = some cs) :
    decodeHeaderPart s = .ok (mkHeaderState s cs, s.drop 520) := by
  have h4 : (4:ℕ) ≤ s.length := by omega
  have hrb : 516 ≤ (s.drop 4).length := by rw [List.length_drop]; omega
  unfold decodeHeaderPart
  rw [check_record_len_ok s 512 _ h4 m1]
  simp only [bind, Except.bind]
  rw [readHeaderBody_full (s.drop 4) hrb]
  simp only [List.drop_drop]
  norm_num
  rw [check_record_len_ok (s.drop 516) 512 _ (by rw [List.length_drop]; omega) m2]
  have l1 : (beInt16s ((s.drop 4).take 62)).length = 31 := by
    rw [beInt16s_length, List.length_take, List.length_drop]; omega
  have l2 : (beFloat32s ((s.drop 66).take 112)).length = 28 := by
    rw [beFloat32s_length, List.length_take, List.length_drop]; omega
  have l3 : (beFloat32s ((s.drop 178).take 180)).length = 45 := by
    rw [beFloat32s_length, List.length_take, List.length_drop]; omega
  simp only [List.drop_drop]
  norm_num [l1, l2, l3, hu, mkHeaderState]

theorem decodePayload_ok_inv (st : Nimrod) (r : List ℕ) (st' : Nimrod)
    (h : decodePayload st r = .ok st') :
    0 ≤ st.nrows ∧ 0 ≤ st.ncols ∧
    beInt (r.take 4) = st.ncols * st.nrows * 2 ∧
    (2 * (st.ncols * st.nrows)).toNat + 4 ≤ r.length := by
  unfold decodePayload at h
  simp only [] at h
  cases hc : check_record_len r (st.ncols * st.nrows * 2) "data start" with
  | error e => rw [hc] at h; exact absurd h (by simp [bind, Except.bind])
  | ok t1 =>
    obtain ⟨h4, hm, ht1⟩ := (check_record_len_ok_iff _ _ _ _).mp hc
    rw [hc] at h
    simp only [bind, Except.bind] at h
    split at h
    · exact absurd h (by simp)
    · rename_i hev
      split at h
      · rename_i hguard
        obtain ⟨hnr, hnc, hlen⟩ := hguard
        refine ⟨hnr, hnc, hm, ?_⟩
        have hA : 0 ≤ st.ncols * st.nrows := mul_nonneg hnc hnr
        rw [not_not] at hev
        rw [ht1] at hev hlen
        unfold pyReadBytes at hev hlen
        rw [if_neg (by omega)] at hev hlen
        rw [beInt16s_length] at hlen
        rw [List.length_take, List.length_drop] at hlen hev
        rw [mul_comm st.nrows st.ncols] at hlen
        have : ((st.ncols * st.nrows).toNat : ℤ) = st.ncols * st.nrows := Int.toNat_of_nonneg hA
        omega
      · exact absurd h (by simp)

theorem readHeaderBody_ok_inv (t : List ℕ) (a : HeaderArrays) (u : List ℕ)
    (h : readHeaderBody t = .ok (a, u)) :
    a.gen_ints = beInt16s (t.take 62) ∧ a.gen_reals = beFloat32s ((t.drop 62).take 112) ∧
    a.spec_reals = beFloat32s ((t.drop 174).take 180) ∧ a.characters = (t.drop 354).take 56 ∧
    a.specInts = beInt16s ((t.drop 410).take 102) ∧ u = t.drop 512 := by
  unfold readHeaderBody at h
  simp only [] at h
  split at h
  · exact absurd h (by simp)
  · rw [Except.ok.injEq, Prod.mk.injEq] at h
    obtain ⟨ha, hu⟩ := h
    subst ha
    simp only [List.drop_drop] at hu ⊢
    norm_num
    exact hu.symm

theorem decodeHeaderPart_ok_inv (s : List ℕ) (st : Nimrod) (t : List ℕ)
    (h : decodeHeaderPart s = .ok (st, t)) :
    520 ≤ s.length ∧ beInt (s.take 4) = 512 ∧ beInt ((s.drop 516).take 4) = 512 ∧
    ∃ cs, utf8Decode ((s.drop 358).take 56) = some cs ∧
      st = mkHeaderState s cs ∧ t = s.drop 520 := by
  unfold decodeHeaderPart at h
  cases hc1 : check_record_len s 512 "header start" with
  | error e => rw [hc1] at h; exact absurd h (by simp [bind, Except.bind])
  | ok s1 =>
    obtain ⟨h4, hm1, hs1⟩ := (check_record_len_ok_iff _ _ _ _).mp hc1
    rw [hc1] at h
    simp only [bind, Except.bind] at h
    cases hrb : readHeaderBody s1 with
    | error e => rw [hrb] at h; exact absurd h (by simp)
    | ok au =>
      obtain ⟨a, u⟩ := au
      obtain ⟨hgi, hgr, hsr, hch, hsi, hu⟩ := readHeaderBody_ok_inv s1 a u hrb
      rw [hrb] at h
      simp only [] at h
      cases hc2 : check_record_len u 512 "header end" with
      | error e => rw [hc2] at h; exact absurd h (by simp)
      | ok s2 =>
        obtain ⟨h4', hm2, hs2⟩ := (check_record_len_ok_iff _ _ _ _).mp hc2
        rw [hc2] at h
        simp only [] at h
        have hu516 : u = s.drop 516 := by
          rw [hu, hs1, List.drop_drop]
        have hlen520 : 520 ≤ s.length := by
          rw [hu516, List.length_drop] at h4'
          omega
        have hs2' : s2 = s.drop 520 := by
          rw [hs2, hu516, List.drop_drop]
        have hm2' : beInt ((s.drop 516).take 4) = 512 := by
          rw [hu516] at hm2; exact hm2
        refine ⟨hlen520, hm1, hm2', ?_⟩
        split at h
        · rename_i hguard
          cases hut : utf8Decode a.characters with
          | none => rw [hut] at h; exact absurd h (by simp)
          | some cs =>
            rw [hut] at h
            rw [Except.ok.injEq, Prod.mk.injEq] at h
            obtain ⟨hst, ht⟩ := h
            have hch' : a.characters = (s.drop 358).take 56 := by
              rw [hch, hs1, List.drop_drop]
            refine ⟨cs, by rw [← hch']; exact hut, ?_, by rw [← ht, hs2']⟩
            rw [← hst]
            rw [hgi, hgr, hsr, hsi, hs1]
            simp only [List.drop_drop]
            norm_num [mkHeaderState]
        · exact absurd h (by simp)

theorem decodePayload_ok_fields (st : Nimrod) (r : List ℕ) (st' : Nimrod)
    (h : decodePayload st r = .ok st') :
    st'.nrows = st.nrows ∧ st'.ncols = st.ncols := by
  unfold decodePayload at h
  simp only [] at h
  cases hc : check_record_len r (st.ncols * st.nrows * 2) "data start" with
  | error e => rw [hc] at h; exact absurd h (by simp [bind, Except.bind])
  | ok t1 =>
    rw [hc] at h
    simp only [bind, Except.bind] at h
    split at h
    · exact absurd h (by simp)
    · split at h
      · cases hc2 : check_record_len (pyReadRest t1 (st.ncols * st.nrows * 2))
            (st.ncols * st.nrows * 2) "data end" with
        | error e => rw [hc2] at h; exact absurd h (by simp)
        | ok v =>
          rw [hc2] at h
          simp only [] at h
          rw [Except.ok.injEq] at h
          rw [← h]
          exact ⟨rfl, rfl⟩
      · exact absurd h (by simp)

theorem mkHeaderState_take (s : List ℕ) (cs : List Char) (M : ℕ) (h : 520 ≤ M) :
    mkHeaderState (s.take M) cs = mkHeaderState s cs := by
  unfold mkHeaderState
  rw [take_drop_take s 4 62 M (by omega), take_drop_take s 66 112 M (by omega),
      take_drop_take s 178 180 M (by omega), take_drop_take s 414 102 M (by omega)]

theorem decode_truncated_payload_aux (s : List ℕ) (st : Nimrod)
    (hok : decode s = .ok st) (hr : 1 ≤ st.nrows) (hc : 1 ≤ st.ncols) :
    decode (s.take (524 + (2 * (st.ncols * st.nrows)).toNat - 1)) = .error .payloadRead := by
  unfold decode at hok
  cases hh : decodeHeaderPart s with
  | error e => rw [hh] at hok; exact absurd hok (by simp [bind, Except.bind])
  | ok p =>
    obtain ⟨st0, t⟩ := p
    rw [hh] at hok
    simp only [bind, Except.bind] at hok
    obtain ⟨h520, hm1, hm2, cs, hcs, hst0, ht⟩ := decodeHeaderPart_ok_inv s st0 t hh
    subst ht
    obtain ⟨hnr0, hnc0, hm3, hlen3⟩ := decodePayload_ok_inv st0 _ st hok
    obtain ⟨hfr, hfc⟩ := decodePayload_ok_fields st0 _ st hok
    rw [hfc, hfr]
    have hP : 1 ≤ st0.ncols * st0.nrows := by
      have h1 : (0:ℤ) < st0.ncols := by omega
      have h2 : (0:ℤ) < st0.nrows := by omega
      exact mul_pos h1 h2
    have hN2 : 2 ≤ (2 * (st0.ncols * st0.nrows)).toNat := by omega
    have hNeven : (2 * (st0.ncols * st0.nrows)).toNat = 2 * (st0.ncols * st0.nrows).toNat := by
      omega
    have hslen : 524 + (2 * (st0.ncols * st0.nrows)).toNat ≤ s.length := by
      rw [List.length_drop] at hlen3; omega
    have hMle : 524 + (2 * (st0.ncols * st0.nrows)).toNat - 1 ≤ s.length := by omega
    have hstep1 : decodeHeaderPart (s.take (524 + (2 * (st0.ncols * st0.nrows)).toNat - 1)) =
        .ok (st0, (s.drop 520).take ((2 * (st0.ncols * st0.nrows)).toNat + 3)) := by
      have e1 : (s.take (524 + (2 * (st0.ncols * st0.nrows)).toNat - 1)).take 4 = s.take 4 := by
        rw [List.take_take, min_eq_left (by omega)]
      have e2 := take_drop_take s 516 4 (524 + (2 * (st0.ncols * st0.nrows)).toNat - 1) (by omega)
      have e3 := take_drop_take s 358 56 (524 + (2 * (st0.ncols * st0.nrows)).toNat - 1) (by omega)
      rw [decodeHeaderPart_full _ cs
        (by rw [List.length_take]; omega)
        (by rw [e1]; exact hm1)
        (by rw [e2]; exact hm2)
        (by rw [e3]; exact hcs)]
      rw [mkHeaderState_take _ _ _ (by omega), ← hst0, List.drop_take]
      have e4 : 524 + (2 * (st0.ncols * st0.nrows)).toNat - 1 - 520 =
          (2 * (st0.ncols * st0.nrows)).toNat + 3 := by omega
      rw [e4]
    unfold decode
    rw [hstep1]
    simp only [bind, Except.bind]
    unfold decodePayload
    simp only []
    have hrlen : ((s.drop 520).take ((2 * (st0.ncols * st0.nrows)).toNat + 3)).length =
        (2 * (st0.ncols * st0.nrows)).toNat + 3 := by
      rw [List.length_take, List.length_drop]; omega
    have hcheck : check_record_len
        ((s.drop 520).take ((2 * (st0.ncols * st0.nrows)).toNat + 3))
        (st0.ncols * st0.nrows * 2) "data start" =
        .ok (((s.drop 520).take ((2 * (st0.ncols * st0.nrows)).toNat + 3)).drop 4) := by
      apply check_record_len_ok
      · omega
      · rw [List.take_take, min_eq_left (by omega)]
        exact hm3
    rw [hcheck]
    simp only [bind, Except.bind]
    have hrd : (((s.drop 520).take ((2 * (st0.ncols * st0.nrows)).toNat + 3)).drop 4) =
        (s.drop 524).take ((2 * (st0.ncols * st0.nrows)).toNat - 1) := by
      rw [List.drop_take, List.drop_drop]
      have e5 : (2 * (st0.ncols * st0.nrows)).toNat + 3 - 4 =
          (2 * (st0.ncols * st0.nrows)).toNat - 1 := by omega
      rw [e5]
    have hbytes : pyReadBytes (((s.drop 520).take ((2 * (st0.ncols * st0.nrows)).toNat + 3)).drop 4)
        (st0.ncols * st0.nrows * 2) =
        (s.drop 524).take ((2 * (st0.ncols * st0.nrows)).toNat - 1) := by
      rw [hrd]
      unfold pyReadBytes
      rw [if_neg (by omega), List.take_take, min_eq_right (by omega)]
    rw [hbytes]
    have hoddlen : ((s.drop 524).take ((2 * (st0.ncols * st0.nrows)).toNat - 1)).length % 2 ≠ 0 := by
      rw [List.length_take, List.length_drop]
      omega
    rw [if_pos hoddlen]

theorem mkHeaderState_nrows (s : List ℕ) (cs : List Char) (h : 66 ≤ s.length) :
    (mkHeaderState s cs).nrows = hdrNrows s := by
  show (beInt16s ((s.drop 4).take 62)).getD 15 0 = hdrNrows s
  rw [beInt16s_getD _ 15 (by rw [List.length_take, List.length_drop]; omega)]
  unfold hdrNrows
  rw [List.drop_take, List.drop_drop, List.take_take]
  norm_num

theorem mkHeaderState_ncols (s : List ℕ) (cs : List Char) (h : 66 ≤ s.length) :
    (mkHeaderState s cs).ncols = hdrNcols s := by
  show (beInt16s ((s.drop 4).take 62)).getD 16 0 = hdrNcols s
  rw [beInt16s_getD _ 16 (by rw [List.length_take, List.length_drop]; omega)]
  unfold hdrNcols
  rw [List.drop_take, List.drop_drop, List.take_take]
  norm_num

theorem decode_ok_fields (s : List ℕ) (st : Nimrod) (h : decode s = .ok st) :
    st.nrows = hdrNrows s ∧ st.ncols = hdrNcols s := by
  unfold decode at h
  cases hh : decodeHeaderPart s with
  | error e => rw [hh] at h; exact absurd h (by simp [bind, Except.bind])
  | ok p =>
    obtain ⟨st0, t⟩ := p
    rw [hh] at h
    simp only [bind, Except.bind] at h
    obtain ⟨h520, _, _, cs, _, hst0, ht⟩ := decodeHeaderPart_ok_inv s st0 t hh
    obtain ⟨hfr, hfc⟩ := decodePayload_ok_fields st0 t st h
    constructor
    · rw [hfr, hst0, mkHeaderState_nrows s cs (by omega)]
    · rw [hfc, hst0, mkHeaderState_ncols s cs (by omega)]

/-- C8: for every byte stream that `decode` accepts (a valid NIMROD byte
stream) with a non-empty raster, cutting the stream one byte short of the
end of the payload record (`nrows*ncols*2` bytes) makes `decode` fail with
`PayloadReadError`; no partially decoded grid is ever produced. -/
theorem c8_truncated_payload (s : List ℕ)
    (hok : decodeOk (decode s) = true) (hr : 1 ≤ hdrNrows s) (hc : 1 ≤ hdrNcols s) :
    decode (s.take (524 + (2 * (hdrNcols s * hdrNrows s)).toNat - 1)) = .error .payloadRead := by
  cases hd : decode s with
  | error e => rw [hd] at hok; exact absurd hok (by simp [decodeOk])
  | ok st =>
    obtain ⟨hfr, hfc⟩ := decode_ok_fields s st hd
    have := decode_truncated_payload_aux s st hd (by omega) (by omega)
    rw [hfc, hfr] at this
    exact this

/-- C2: every 4-byte big-endian record marker that `decode` reads and that
differs from its expected value makes the decode fail with
`RecordLenError{actual, expected, location}` and produce no result: the
leading ("header start") and trailing ("header end") header markers must
equal 512, and the leading ("data start") and trailing ("data end")
payload markers must equal `ncols*nrows*2`. -/
theorem c2_record_len_mismatch :
    (∀ s : List ℕ, 4 ≤ s.length → beInt (s.take 4) ≠ 512 →
      decode s = .error (.recordLen (beInt (s.take 4)) 512 "header start"))
    ∧
    (∀ s : List ℕ, 520 ≤ s.length → beInt (s.take 4) = 512 →
      beInt ((s.drop 516).take 4) ≠ 512 →
      decode s = .error (.recordLen (beInt ((s.drop 516).take 4)) 512 "header end"))
    ∧
    (∀ s : List ℕ, ∀ cs : List Char, 524 ≤ s.length → beInt (s.take 4) = 512 →
      beInt ((s.drop 516).take 4) = 512 →
      utf8Decode ((s.drop 358).take 56) = some cs →
      beInt ((s.drop 520).take 4) ≠ payloadExpected s →
      decode s = .error (.recordLen (beInt ((s.drop 520).take 4)) (payloadExpected s) "data start"))
    ∧
    (∀ s : List ℕ, ∀ cs : List Char,
      0 ≤ hdrNrows s → 0 ≤ hdrNcols s →
      524 + (2 * (hdrNcols s * hdrNrows s)).toNat + 4 ≤ s.length →
      beInt (s.take 4) = 512 →
      beInt ((s.drop 516).take 4) = 512 →
      utf8Decode ((s.drop 358).take 56) = some cs →
      beInt ((s.drop 520).take 4) = payloadExpected s →
      beInt ((s.drop (524 + (2 * (hdrNcols s * hdrNrows s)).toNat)).take 4) ≠ payloadExpected s →
      decode s = .error (.recordLen
        (beInt ((s.drop (524 + (2 * (hdrNcols s * hdrNrows s)).toNat)).take 4))
        (payloadExpected s) "data end")) := by
  refine ⟨?stage1, ?stage2, ?stage3, ?stage4⟩
  case stage1 =>
    intro s h4 hv
    unfold decode decodeHeaderPart
    rw [check_record_len_err s 512 _ h4 hv]
    rfl
  case stage2 =>
    intro s hlen hm1 hv
    unfold decode decodeHeaderPart
    rw [check_record_len_ok s 512 _ (by omega) hm1]
    simp only [bind, Except.bind]
    rw [readHeaderBody_full (s.drop 4) (by rw [List.length_drop]; omega)]
    simp only [List.drop_drop]
    norm_num
    rw [check_record_len_err (s.drop 516) 512 _ (by rw [List.length_drop]; omega) hv]
  case stage3 =>
    intro s cs hlen hm1 hm2 hcs hv
    unfold decode
    rw [decodeHeaderPart_full s cs (by omega) hm1 hm2 hcs]
    simp only [bind, Except.bind]
    unfold decodePayload
    simp only []
    rw [mkHeaderState_nrows s cs (by omega), mkHeaderState_ncols s cs (by omega)]
    unfold payloadExpected at hv ⊢
    rw [check_record_len_err (s.drop 520) _ _ (by rw [List.length_drop]; omega) hv]
    rfl
  case stage4 =>
    intro s cs hnr hnc hlen hm1 hm2 hcs hm3 hv
    have hN' : (2 * (hdrNcols s * hdrNrows s)).toNat =
        2 * (hdrNcols s * hdrNrows s).toNat := by
      have : 0 ≤ hdrNcols s * hdrNrows s := mul_nonneg hnc hnr
      omega
    rw [hN'] at hlen hv ⊢
    unfold decode
    rw [decodeHeaderPart_full s cs (by omega) hm1 hm2 hcs]
    simp only [bind, Except.bind]
    unfold decodePayload
    simp only []
    rw [mkHeaderState_nrows s cs (by omega), mkHeaderState_ncols s cs (by omega)]
    unfold payloadExpected at hm3 hv ⊢
    rw [check_record_len_ok (s.drop 520) _ _ (by rw [List.length_drop]; omega) hm3]
    simp only [bind, Except.bind]
    rw [List.drop_drop]
    have hN : (hdrNcols s * hdrNrows s * 2).toNat = 2 * (hdrNcols s * hdrNrows s).toNat := by
      have : 0 ≤ hdrNcols s * hdrNrows s := mul_nonneg hnc hnr
      omega
    have hbytes : pyReadBytes (s.drop 524) (hdrNcols s * hdrNrows s * 2) =
        (s.drop 524).take (2 * (hdrNcols s * hdrNrows s).toNat) := by
      unfold pyReadBytes
      have : 0 ≤ hdrNcols s * hdrNrows s := mul_nonneg hnc hnr
      rw [if_neg (by omega), hN]
    have hrest : pyReadRest (s.drop 524) (hdrNcols s * hdrNrows s * 2) =
        s.drop (524 + 2 * (hdrNcols s * hdrNrows s).toNat) := by
      unfold pyReadRest
      have : 0 ≤ hdrNcols s * hdrNrows s := mul_nonneg hnc hnr
      rw [if_neg (by omega), hN, List.drop_drop, Nat.add_comm]
    rw [hbytes, hrest]
    have hblen : ((s.drop 524).take (2 * (hdrNcols s * hdrNrows s).toNat)).length =
        2 * (hdrNcols s * hdrNrows s).toNat := by
      rw [List.length_take, List.length_drop]
      omega
    rw [if_neg (by rw [hblen]; omega)]
    have hguard : 0 ≤ hdrNrows s ∧ 0 ≤ hdrNcols s ∧
        ((beInt16s ((s.drop 524).take (2 * (hdrNcols s * hdrNrows s).toNat))).length : ℤ) =
          hdrNrows s * hdrNcols s := by
      refine ⟨hnr, hnc, ?_⟩
      rw [beInt16s_length, hblen]
      have h0 : 0 ≤ hdrNcols s * hdrNrows s := mul_nonneg hnc hnr
      have h1 : ((hdrNcols s * hdrNrows s).toNat : ℤ) = hdrNcols s * hdrNrows s :=
        Int.toNat_of_nonneg h0
      rw [mul_comm (hdrNrows s) (hdrNcols s)]
      omega
    rw [if_pos hguard]
    rw [check_record_len_err _ _ _ (by rw [List.length_drop]; omega) hv]

set_option maxRecDepth 100000

theorem c2_record_len_mismatch_witness :
    decode [0, 0, 0, 0] =
      .error (.recordLen (beInt (([0, 0, 0, 0] : List ℕ).take 4)) 512 "header start") ∧
    decode c2StreamHdrEnd =
      .error (.recordLen (beInt ((c2StreamHdrEnd.drop 516).take 4)) 512 "header end") ∧
    decode c2StreamDataStart =
      .error (.recordLen (beInt ((c2StreamDataStart.drop 520).take 4))
        (payloadExpected c2StreamDataStart) "data start") ∧
    decode c2StreamDataEnd =
      .error (.recordLen
        (beInt ((c2StreamDataEnd.drop
          (524 + (2 * (hdrNcols c2StreamDataEnd * hdrNrows c2StreamDataEnd)).toNat)).take 4))
        (payloadExpected c2StreamDataEnd) "data end") :=
  ⟨c2_record_len_mismatch.1 [0, 0, 0, 0] (by decide) (by decide),
   c2_record_len_mismatch.2.1 c2StreamHdrEnd (by decide) (by decide) (by decide),
   c2_record_len_mismatch.2.2.1 c2StreamDataStart (List.replicate 56 (Char.ofNat 0))
     (by decide) (by decide) (by decide) (by decide) (by decide),
   c2_record_len_mismatch.2.2.2 c2StreamDataEnd (List.replicate 56 (Char.ofNat 0))
     (by decide) (by decide) (by decide) (by decide) (by decide) (by decide) (by decide) (by decide)⟩

theorem c8_truncated_payload_witness :
    decodeOk (decode goodStream) = true ∧ 1 ≤ hdrNrows goodStream ∧ 1 ≤ hdrNcols goodStream ∧
    decode (goodStream.take
      (524 + (2 * (hdrNcols goodStream * hdrNrows goodStream)).toNat - 1)) =
      .error .payloadRead :=
  ⟨by decide, by decide, by decide,
   c8_truncated_payload goodStream (by decide) (by decide) (by decide)⟩

/-- C9: a decode failure (`HeaderReadError`, `PayloadReadError`, or any
other error) of one file is confined to that file's task: the batch
outcome list records `false` for it and every other file is processed
unchanged.  Concretely, a batch of three files — two valid streams and
one with a truncated payload — yields exactly two successes, the
`PayloadReadError` being logged for the corrupt file, and the run
completes. -/
theorem c9_batch_error_isolation :
    (∀ (fs1 fs2 : List (List ℕ)) (f : List ℕ) (e : NimErr), decode f = .error e →
      process_batch (fs1 ++ f :: fs2) = process_batch fs1 ++ false :: process_batch fs2)
    ∧ decode badStream = .error .payloadRead
    ∧ process_batch [goodStream, badStream, goodStream2] = [true, false, true]
    ∧ (process_batch [goodStream, badStream, goodStream2]).count true = 2 := by
  refine ⟨?_, by decide, by decide, by decide⟩
  intro fs1 fs2 f e h
  unfold process_batch
  rw [List.map_append, List.map_cons]
  unfold process_single_file
  rw [h]

theorem c9_batch_error_isolation_witness :
    process_batch [badStream] = process_batch [] ++ false :: process_batch [] :=
  c9_batch_error_isolation.1 [] [] badStream .payloadRead (by decide)

/-- C3 (code evaluated at the failing input): zone 1 holds locations A
(observing 3 at t₁ and 5 at t₂) and B (observing 7 at t₂ and 9 at t₃),
results accumulated in ascending order, t₁ < t₂ < t₃.  The produced
table has the correct sorted union row axis `[t₁, t₂, t₃]`, but the
alignment is positional (`date_iter` iterates the union dates and the
member's own dates are discarded), so column B reads `[7, 9, absent]`:
B's t₂ observation is shown at t₁, its t₃ observation at t₂, and t₃ is
shown absent — instead of the claimed `[absent, 7, 9]`. -/
theorem c3_zone_alignment_eval :
    zoneTable tsLocsC3 resultsC3 1 =
      ([1, 2, 3], [("A", [some 3, some 5, none]), ("B", [some 7, some 9, none])]) ∧
    zoneTable tsLocsC3 resultsC3 1 ≠
      ([1, 2, 3], [("A", [some 3, some 5, none]), ("B", [none, some 7, some 9])]) := by
  constructor
  · decide
  · decide

/-- C7: `calculate_crop_coords` applied with the target (basin) descriptor
equal to the source (radar) descriptor — same origin, same row/column
extent, same cell size — returns the window `(startCol = 0, startRow = 0,
endCol = cols, endRow = rows)` covering the whole source grid; the
hard-coded 2×2, 1 km variant of `GenerateTimeseries` does the same when
the source is a 2×2 grid of 1 km cells with the location at its origin. -/
theorem c7_crop_window_identity :
    (∀ (nc nr : ℤ) (x0 y0 cell : ℚ), cell ≠ 0 →
      calculate_crop_coords [(nc : ℚ), (nr : ℚ), x0, y0, cell]
        [(nc : ℚ), (nr : ℚ), x0, y0, cell] = (0, 0, nc, nr))
    ∧ (∀ (gid : String) (z : ℤ) (x0 y0 nd : ℚ),
      gt_calculate_crop_coords ⟨gid, x0, y0, z⟩ [2, 2, x0, y0, 1000, nd] = (0, 0, 2, 2)) := by
  constructor
  · intro nc nr x0 y0 cell hcell
    unfold calculate_crop_coords
    simp only [List.getD_cons_zero, List.getD_cons_succ]
    rw [sub_self, sub_self, zero_div, zero_add, add_zero, mul_div_assoc, div_self hcell,
      mul_one, mul_div_assoc, div_self hcell, mul_one]
    norm_num
  · intro gid z x0 y0 nd
    unfold gt_calculate_crop_coords
    simp only [List.getD_cons_zero, List.getD_cons_succ]
    rw [sub_self, sub_self]
    norm_num

theorem c7_crop_window_identity_witness :
    (1000 : ℚ) ≠ 0 ∧
    calculate_crop_coords [2, 3, 5, 7, 1000] [2, 3, 5, 7, 1000] = (0, 0, 2, 3) := by
  refine ⟨by norm_num, ?_⟩
  have h := c7_crop_window_identity.1 2 3 5 7 1000 (by norm_num)
  norm_num at h
  exact h

/-- C10: `process_asc_file` always records one plain-number observation
per configured location (never an absent marker, never an error): the
value is cell 2 of the row-major flattening of the window
`grid[start_row:end_row, start_col:end_col]` divided by 32 when the
window holds more than two cells, and exactly 0 otherwise (for example
when the location lies near or outside the raster edge). -/
theorem c10_location_value (radar : List ℚ) (grid : List (List ℚ)) (date : ℕ)
    (locs : List Location) (i : ℕ) :
    (process_asc_file radar grid date locs).length = locs.length ∧
    ((process_asc_file radar grid date locs).get? i).map LocResult.value =
      (locs.get? i).map (fun loc =>
        let c := gt_calculate_crop_coords loc radar
        let w := pySlice2 grid c.2.1 c.2.2.2 c.1 c.2.2.1
        if 2 < gridSize w then w.flatten.getD 2 0 / 32 else 0) := by
  constructor
  · unfold process_asc_file
    rw [List.length_map]
  · unfold process_asc_file gt_location_value
    rw [List.get?_map]
    cases locs.get? i with
    | none => rfl
    | some loc => rfl

/-- C5 (code evaluated at the failing input): on a raster with
`x_pixel_size = 2` and `y_pixel_size = 10`, the box `(0, 1, -4, -3)` comes
within half a (y-)pixel of the bottom raster edge — it is not outside
beyond the half-pixel tolerance — yet `apply_bbox` raises
`BboxRangeError`, because line 372 of `nimrod.py` measures the
bottom-edge tolerance with `x_pixel_size` instead of `y_pixel_size`. -/
theorem c5_bbox_tolerance_eval :
    apply_bbox stC5 0 1 (-4) (-3) = .error .bboxRange ∧
    ¬ outsideBeyondHalfPixel stC5 0 1 (-4) (-3) := by
  constructor
  · unfold apply_bbox stC5
    norm_num
  · unfold outsideBeyondHalfPixel stC5
    norm_num

/-- C6: on any consistent decoded raster, clipping to the full raster
extent `(x_left, x_right, y_bottom, y_top)` returns the state unchanged:
same `nrows`, `ncols`, bounds, header elements and grid. -/
theorem c6_full_extent_identity (st : Nimrod) (hg : GeomOK st) (hc : StateConsistent st) :
    apply_bbox st st.x_left st.x_right st.y_bottom st.y_top = .ok st := by
  obtain ⟨hxp, hyp', hnc, hnr, hxr, hyb⟩ := hg
  obtain ⟨hdl, hdw, h16, h17, h34, h36⟩ := hc
  have hc1 : (1 : ℚ) ≤ (st.ncols : ℚ) := by exact_mod_cast hnc
  have hr1 : (1 : ℚ) ≤ (st.nrows : ℚ) := by exact_mod_cast hnr
  have hlex : st.x_left ≤ st.x_right := by
    rw [hxr]
    nlinarith
  have hley : st.y_bottom ≤ st.y_top := by
    rw [hyb]
    nlinarith
  have hXMin : pyInt ((max st.x_left st.x_left - st.x_left) / st.x_pixel_size + 1/2) = 0 := by
    rw [max_self, sub_self, zero_div, zero_add, pyInt_eq_floor _ (by norm_num)]
    norm_num
  have hXMax : pyInt ((min st.x_right st.x_right - st.x_left) / st.x_pixel_size + 1/2)
      = st.ncols - 1 := by
    rw [min_self, hxr, add_sub_cancel_left, mul_div_cancel_left₀ _ (ne_of_gt hxp)]
    have e1 : (st.ncols : ℚ) - 1 = ((st.ncols - 1 : ℤ) : ℚ) := by push_cast; ring
    rw [e1, pyInt_eq_floor _ (by
      have : (0 : ℚ) ≤ ((st.ncols - 1 : ℤ) : ℚ) := by push_cast; linarith
      linarith)]
    rw [Int.floor_int_add]
    norm_num
  have hYMin : pyInt ((st.y_top - min st.y_top st.y_top) / st.y_pixel_size + 1/2) = 0 := by
    rw [min_self, sub_self, zero_div, zero_add, pyInt_eq_floor _ (by norm_num)]
    norm_num
  have hYMax : pyInt ((st.y_top - max st.y_bottom st.y_bottom) / st.y_pixel_size + 1/2)
      = st.nrows - 1 := by
    rw [max_self, hyb, sub_sub_cancel, mul_div_cancel_left₀ _ (ne_of_gt hyp')]
    have e1 : (st.nrows : ℚ) - 1 = ((st.nrows - 1 : ℤ) : ℚ) := by push_cast; ring
    rw [e1, pyInt_eq_floor _ (by
      have : (0 : ℚ) ≤ ((st.nrows - 1 : ℤ) : ℚ) := by push_cast; linarith
      linarith)]
    rw [Int.floor_int_add]
    norm_num
  unfold apply_bbox
  rw [if_neg (by
    push_neg
    refine ⟨by linarith, by linarith, by linarith, by linarith⟩)]
  simp only []
  rw [hXMin, hXMax, hYMin, hYMax]
  have hrowfull : ∀ row ∈ st.data, pySlice row 0 (st.ncols - 1 + 1) = row := by
    intro row hrow
    rw [sub_add_cancel, pySlice_eq_drop_take _ _ _ (le_refl 0) (by omega), Int.toNat_zero,
      List.drop_zero, Nat.sub_zero, ← hdw row hrow, List.take_length]
  have hdata : pySlice2 st.data 0 (st.nrows - 1 + 1) 0 (st.ncols - 1 + 1) = st.data := by
    unfold pySlice2
    have hrows : pySlice st.data 0 (st.nrows - 1 + 1) = st.data := by
      rw [sub_add_cancel, pySlice_eq_drop_take _ _ _ (le_refl 0) (by omega), Int.toNat_zero,
        List.drop_zero, Nat.sub_zero, ← hdl, List.take_length]
    rw [hrows]
    calc st.data.map (fun row => pySlice row 0 (st.ncols - 1 + 1))
        = st.data.map id := List.map_congr_left hrowfull
      _ = st.data := List.map_id st.data
  rw [hdata]
  have hxr' : st.x_left + ((st.ncols - 1 : ℤ) : ℚ) * st.x_pixel_size = st.x_right := by
    rw [hxr]; push_cast; ring
  have hxl' : st.x_left + ((0 : ℤ) : ℚ) * st.x_pixel_size = st.x_left := by push_cast; ring
  have hnc' : st.ncols - 1 - 0 + 1 = st.ncols := by ring
  have hyb' : st.y_top - ((st.nrows - 1 : ℤ) : ℚ) * st.y_pixel_size = st.y_bottom := by
    rw [hyb]; push_cast; ring
  have hyt' : st.y_top - ((0 : ℤ) : ℚ) * st.y_pixel_size = st.y_top := by push_cast; ring
  have hnr' : st.nrows - 1 - 0 + 1 = st.nrows := by ring
  rw [hxr', hxl', hnc', hyb', hyt', hnr']
  have hhdr : (((st.hdr_element.set 16 ((st.nrows : ℚ))).set 17 ((st.ncols : ℚ))).set 34
      st.y_top).set 36 st.x_left = st.hdr_element := by
    rw [set_get?_self _ _ _ h16, set_get?_self _ _ _ h17, set_get?_self _ _ _ h34,
      set_get?_self _ _ _ h36]
  rw [hhdr]

theorem c6_full_extent_identity_witness :
    GeomOK stC4 ∧ StateConsistent stC4 ∧
    apply_bbox stC4 stC4.x_left stC4.x_right stC4.y_bottom stC4.y_top = .ok stC4 := by
  have hG : GeomOK stC4 := by
    unfold GeomOK stC4
    norm_num
  have hC : StateConsistent stC4 := by
    unfold StateConsistent
    refine ⟨by decide, by decide, by decide, by decide, by decide, by decide⟩
  exact ⟨hG, hC, c6_full_extent_identity stC4 hG hC⟩

/-- C1: whenever `apply_bbox` accepts a bounding box on a well-formed
raster, it first clamps the box to `[x_left, x_right] × [y_bottom, y_top]`,
converts the clamped bounds to pixel indices with
`⌊(· - origin)/pixel_size + 1/2⌋` (inverted in y because row 0 is the
northmost row), and the clipped grid is exactly the sub-grid of rows
`yMin..yMax` and columns `xMin..xMax` (inclusive) of the original grid. -/
theorem c1_bbox_subgrid (st st' : Nimrod) (xmin xmax ymin ymax : ℚ) (hg : GeomOK st)
    (h : apply_bbox st xmin xmax ymin ymax = .ok st') :
    bboxSubgridSpec st xmin xmax ymin ymax st' := by
  obtain ⟨hxp, hyp', hnc, hnr, hxr, hyb⟩ := hg
  have hc1 : (1 : ℚ) ≤ (st.ncols : ℚ) := by exact_mod_cast hnc
  have hr1 : (1 : ℚ) ≤ (st.nrows : ℚ) := by exact_mod_cast hnr
  unfold apply_bbox at h
  split at h
  · exact absurd h (by simp)
  · rename_i hcond
    push_neg at hcond
    obtain ⟨hbc1, hbc2, hbc3, hbc4⟩ := hcond
    rw [Except.ok.injEq] at h
    have haX1 : 0 ≤ (max xmin st.x_left - st.x_left) / st.x_pixel_size + 1/2 := by
      have h1 : 0 ≤ (max xmin st.x_left - st.x_left) / st.x_pixel_size :=
        div_nonneg (by linarith [le_max_right xmin st.x_left]) hxp.le
      linarith
    have haX2 : 0 ≤ (min xmax st.x_right - st.x_left) / st.x_pixel_size + 1/2 := by
      have hlow : st.x_left - st.x_pixel_size / 2 ≤ min xmax st.x_right := by
        refine le_min hbc2 ?_
        rw [hxr]
        nlinarith
      have h1 : -(1/2 : ℚ) ≤ (min xmax st.x_right - st.x_left) / st.x_pixel_size := by
        rw [le_div_iff hxp]
        nlinarith
      linarith
    have haY1 : 0 ≤ (st.y_top - min ymax st.y_top) / st.y_pixel_size + 1/2 := by
      have h1 : 0 ≤ (st.y_top - min ymax st.y_top) / st.y_pixel_size :=
        div_nonneg (by linarith [min_le_right ymax st.y_top]) hyp'.le
      linarith
    have haY2 : 0 ≤ (st.y_top - max ymin st.y_bottom) / st.y_pixel_size + 1/2 := by
      have hhigh : max ymin st.y_bottom ≤ st.y_top + st.y_pixel_size / 2 := by
        refine max_le hbc3 ?_
        rw [hyb]
        nlinarith
      have h1 : -(1/2 : ℚ) ≤ (st.y_top - max ymin st.y_bottom) / st.y_pixel_size := by
        rw [le_div_iff hyp']
        nlinarith
      linarith
    unfold bboxSubgridSpec
    refine ⟨Int.floor_nonneg.mpr haX1, Int.floor_nonneg.mpr haY1, ?_⟩
    rw [← h]
    show pySlice2 st.data
        (pyInt ((st.y_top - min ymax st.y_top) / st.y_pixel_size + 1/2))
        (pyInt ((st.y_top - max ymin st.y_bottom) / st.y_pixel_size + 1/2) + 1)
        (pyInt ((max xmin st.x_left - st.x_left) / st.x_pixel_size + 1/2))
        (pyInt ((min xmax st.x_right - st.x_left) / st.x_pixel_size + 1/2) + 1) = _
    rw [pyInt_eq_floor _ haX1, pyInt_eq_floor _ haX2, pyInt_eq_floor _ haY1,
      pyInt_eq_floor _ haY2]
    have hfx1 : 0 ≤ ⌊(max xmin st.x_left - st.x_left) / st.x_pixel_size + 1/2⌋ :=
      Int.floor_nonneg.mpr haX1
    have hfx2 : 0 ≤ ⌊(min xmax st.x_right - st.x_left) / st.x_pixel_size + 1/2⌋ :=
      Int.floor_nonneg.mpr haX2
    have hfy1 : 0 ≤ ⌊(st.y_top - min ymax st.y_top) / st.y_pixel_size + 1/2⌋ :=
      Int.floor_nonneg.mpr haY1
    have hfy2 : 0 ≤ ⌊(st.y_top - max ymin st.y_bottom) / st.y_pixel_size + 1/2⌋ :=
      Int.floor_nonneg.mpr haY2
    unfold pySlice2
    rw [pySlice_eq_drop_take _ _ _ hfy1 (by omega)]
    have hyconv : (⌊(st.y_top - max ymin st.y_bottom) / st.y_pixel_size + 1/2⌋ + 1).toNat -
        ⌊(st.y_top - min ymax st.y_top) / st.y_pixel_size + 1/2⌋.toNat =
        ⌊(st.y_top - max ymin st.y_bottom) / st.y_pixel_size + 1/2⌋.toNat + 1 -
        ⌊(st.y_top - min ymax st.y_top) / st.y_pixel_size + 1/2⌋.toNat := by omega
    rw [hyconv]
    congr 1
    funext row
    rw [pySlice_eq_drop_take _ _ _ hfx1 (by omega)]
    congr 1
    omega

theorem c1_bbox_subgrid_witness :
    GeomOK stC1 ∧ apply_bbox stC1 (6/10) 1 0 (4/10) = .ok stC1' ∧
    bboxSubgridSpec stC1 (6/10) 1 0 (4/10) stC1' := by
  have hG : GeomOK stC1 := by
    unfold GeomOK stC1
    norm_num
  have hA : apply_bbox stC1 (6/10) 1 0 (4/10) = .ok stC1' := by
    unfold apply_bbox stC1 stC1'
    norm_num [pyInt, pySlice2, pySlice, sliceIdx]
    exact ⟨by decide, by decide⟩
  exact ⟨hG, hA, c1_bbox_subgrid stC1 stC1' (6/10) 1 0 (4/10) hG hA⟩

/-- C4 (counterexample): on the spec's concrete header (`nrows = ncols =
2`, `y_top = 218000`, `x_left = 607000`, `cellsize = 1000`, grid
`[[10, 20], [30, 40]]`), the ASCII export does NOT contain
`yllcenter 216000`: no output line mentions 216000 at all, because
`y_bottom = y_top - cellsize*(nrows-1) = 217000`. -/
theorem c4_ascii_export_counterexample :
    "yllcenter     216000" ∉ extract_asc stC4 ∧
    ∀ l ∈ extract_asc stC4, ¬ ("216000".data <:+: l.data) := by
  have hout : extract_asc stC4 =
      ["ncols          2", "nrows          2", "xllcenter     607000", "yllcenter     217000",
       "cellsize       1000.0", "nodata_value  0.0", "10 20", "30 40"] := by
    unfold extract_asc stC4 fmtD fmtF1 pyInt
    norm_num [fmtF1.fmtF1aux]
    decide
  rw [hout]
  exact ⟨by decide, by decide⟩

/-- C4 (amended): on the spec's concrete header, the ASCII export
produces `xllcenter 607000`, `yllcenter 217000` (not 216000: the
lower-left pixel centre is `y_top - cellsize*(nrows-1)`),
`cellsize 1000.0`, followed by the data rows `"10 20"` and `"30 40"`
in that order. -/
theorem c4_ascii_export_amended :
    extract_asc stC4 =
      ["ncols          2", "nrows          2", "xllcenter     607000", "yllcenter     217000",
       "cellsize       1000.0", "nodata_value  0.0", "10 20", "30 40"] := by
  unfold extract_asc stC4 fmtD fmtF1 pyInt
  norm_num [fmtF1.fmtF1aux]
  decide
